import Mathlib

/-!
Shallow embedding of the simulation core of `turtle_adventure.py` (the
Turtle's Adventure game) and proofs about it.

Modelling conventions:
* Positions and scalar quantities are rationals (`ℚ`); Python's binary
  floats are exact on the concrete inputs used in the closed theorems
  below, so the rational model agrees with the program there.
* Python's `math.sqrt` (and the square-root hidden inside
  `turtle.distance`) is passed to each embedded function as an explicit
  parameter `sq : ℚ → ℚ`.  The predicate `IsSqrtOf s q` (`0 ≤ s ∧ s ^ 2 = q`)
  pins `s` to the unique real square root of `q`; theorems that depend on
  square-root facts assume `IsSqrtOf` exactly at the arguments where the
  program applies `sq`.
* A Python statement `self.x += rhs` whose `rhs` raises
  `ZeroDivisionError` leaves every attribute untouched and propagates the
  exception; fallible updates therefore return `Option`, `none` meaning
  the update raised.
* `randint`/`choice` randomness is supplied by an explicit stream
  parameter, and the in-frame recursion of `RandomWalkEnemy.update` /
  `FencingEnemy.update` is given explicit fuel (`none` on exhausted fuel).
-/

/-- A point in the plane: the `(x, y)` position every game element carries. -/
structure Point where
  x : ℚ
  y : ℚ
deriving DecidableEq, Repr

/-- `IsSqrtOf s q`: `s` is the (real) square root of `q`.  Used to pin the
square-root parameter `sq` of the embedded updates at the values where the
program calls `math.sqrt`. -/
def IsSqrtOf (s q : ℚ) : Prop := 0 ≤ s ∧ s ^ 2 = q

instance (s q : ℚ) : Decidable (IsSqrtOf s q) := by
  unfold IsSqrtOf; infer_instance

/-- Embeds `Home`: fixed position plus size (side length of the square). -/
structure HomeData where
  x : ℚ
  y : ℚ
  size : ℚ
deriving DecidableEq, Repr

/-- Embeds `Home.contains(x, y)`:
`x1, x2 = self.x - self.size / 2, self.x + self.size / 2`,
`y1, y2 = self.y - self.size / 2, self.y + self.size / 2`,
`return x1 <= x <= x2 and y1 <= y <= y2`. -/
def HomeData.contains (h : HomeData) (x y : ℚ) : Bool :=
  let x1 := h.x - h.size / 2
  let x2 := h.x + h.size / 2
  let y1 := h.y - h.size / 2
  let y2 := h.y + h.size / 2
  decide (x1 ≤ x) && decide (x ≤ x2) && decide (y1 ≤ y) && decide (y ≤ y2)

/-- Embeds `Waypoint`: the activation flag plus position. -/
structure WaypointData where
  active : Bool
  x : ℚ
  y : ℚ
deriving DecidableEq, Repr

/-- Embeds `Enemy.hits_player()`:
`(self.x-plr.x)**2 + (self.y-plr.y)**2 <= (self.size/2 + 9) ** 2`. -/
def hitsPlayer (ex ey px py size : ℚ) : Bool :=
  decide ((ex - px) ^ 2 + (ey - py) ^ 2 ≤ (size / 2 + 9) ^ 2)

/-- Result of one `Player.update(delta_time)` call: the player's new
position, the waypoint state after the call, and whether
`game_over_win()` was signalled. -/
structure PlayerResult where
  pos : Point
  wp : WaypointData
  win : Bool
deriving DecidableEq, Repr

/-- Embeds `Player.update(delta_time)`.  The code first tests
`home.contains(self.x, self.y)` (signalling the win), then — with no early
return — if the waypoint is active it sets the turtle's heading towards the
waypoint, moves `delta_dis = speed * delta_time` forward, and deactivates
the waypoint when the *post-move* `turtle.distance(waypoint) <= delta_dis`.
`turtle.towards` of the turtle's own position is heading `0` (towards
positive x), so the coincident case moves along the x-axis without fault. -/
def playerUpdate (sq : ℚ → ℚ) (home : HomeData) (wp : WaypointData)
    (speed dt : ℚ) (p : Point) : PlayerResult :=
  let win := home.contains p.x p.y
  if wp.active then
    let dif_x := wp.x - p.x
    let dif_y := wp.y - p.y
    let dist := sq (dif_x ^ 2 + dif_y ^ 2)
    let delta_dis := speed * dt
    let p1 : Point :=
      if dist = 0 then ⟨p.x + delta_dis, p.y⟩
      else ⟨p.x + delta_dis * (dif_x / dist), p.y + delta_dis * (dif_y / dist)⟩
    let postDist := sq ((wp.x - p1.x) ^ 2 + (wp.y - p1.y) ^ 2)
    let wp1 := if postDist ≤ delta_dis then { wp with active := false } else wp
    ⟨p1, wp1, win⟩
  else ⟨p, wp, win⟩

/-- Embeds `Waypoint.update(delta_time)`: `pass` (a waypoint is fixed). -/
def waypointUpdate (_delta_time : ℚ) (w : WaypointData) : WaypointData := w

/-- Embeds `Home.update(delta_time)`: `pass`. -/
def homeUpdate (_delta_time : ℚ) (h : HomeData) : HomeData := h

/-- Embeds `DemoEnemy.update(delta_time)`: `pass`. -/
def demoUpdate (_delta_time : ℚ) (e : Point) : Point := e

/-- Embeds `ChasingEnemy.update(delta_time)`:
`dist = sqrt(dif_x**2 + dif_y**2)` followed by
`self.x += (dif_x / dist) * delta_time * self.speed` (and the same for
`y`), then the `hits_player()` check.  When `dist` is `0` the division
raises `ZeroDivisionError` (returned as `none`); otherwise the result is
the new position paired with the `game_over_lose` signal. -/
def chasingUpdate (sq : ℚ → ℚ) (plr : Point) (size speed dt : ℚ)
    (e : Point) : Option (Point × Bool) :=
  let dif_x := plr.x - e.x
  let dif_y := plr.y - e.y
  let dist := sq (dif_x ^ 2 + dif_y ^ 2)
  if dist = 0 then none
  else
    let e1 : Point := ⟨e.x + dif_x / dist * dt * speed, e.y + dif_y / dist * dt * speed⟩
    some (e1, hitsPlayer e1.x e1.y plr.x plr.y size)

/-- Hidden state of a `RandomWalkEnemy`: its position and its current
wander target `(__tarx, __tary)`. -/
structure RWState where
  pos : Point
  tar : Point
deriving DecidableEq, Repr

/-- Embeds `RandomWalkEnemy.update(delta_time)`.  `rng k` supplies the
pair produced by the `k`-th `randint(0, w), randint(0, h)` re-roll; `fuel`
bounds the in-frame recursion (`none` when Python would recurse deeper or
when the division by `dist = 0` raises).  The result pairs the new state
with the `game_over_lose` signal from `hits_player()`. -/
def randomWalkUpdate (sq : ℚ → ℚ) (rng : ℕ → ℚ × ℚ) (plr : Point)
    (size speed dt : ℚ) : ℕ → ℕ → RWState → Option (RWState × Bool)
  | 0, _, _ => none
  | fuel + 1, k, s =>
    let dif_x := s.tar.x - s.pos.x
    let dif_y := s.tar.y - s.pos.y
    let dist_sq := dif_x ^ 2 + dif_y ^ 2
    if dist_sq < dt * speed ^ 2 then
      randomWalkUpdate sq rng plr size speed dt fuel (k + 1)
        { s with tar := ⟨(rng k).1, (rng k).2⟩ }
    else
      let dist := sq dist_sq
      if dist = 0 then none
      else
        let p1 : Point :=
          ⟨s.pos.x + dif_x / dist * dt * speed, s.pos.y + dif_y / dist * dt * speed⟩
        some ({ s with pos := p1 }, hitsPlayer p1.x p1.y plr.x plr.y size)

/-- Embeds the tuple lookup `(-1, 1, 1, -1)[corner]` of
`FencingEnemy.update` (defined for the maintained range `0 ≤ corner < 4`). -/
def fenceSignX (corner : ℤ) : ℚ :=
  if corner = 0 then -1 else if corner = 1 then 1 else if corner = 2 then 1 else -1

/-- Embeds the tuple lookup `(-1, 1)[corner // 2]` of
`FencingEnemy.update` (defined for the maintained range `0 ≤ corner < 4`). -/
def fenceSignY (corner : ℤ) : ℚ :=
  if corner / 2 = 0 then -1 else 1

/-- Embeds the step `(1, -1)[self.__dir]` of `FencingEnemy.update`:
Python indexes the pair with the bool, so `True ↦ -1` and `False ↦ 1`. -/
def fenceStep (dir : Bool) : ℤ :=
  if dir then -1 else 1

/-- Hidden state of a `FencingEnemy`: its position and its current target
corner index `__tar_corner`. -/
structure FenceState where
  pos : Point
  corner : ℤ
deriving DecidableEq, Repr

/-- Embeds `FencingEnemy.update(delta_time)`.  The target is
`(home.x + radius * (-1,1,1,-1)[corner], home.y + radius * (-1,1)[corner // 2])`;
on arrival (`dist_sq < delta_time * speed ** 2`) the corner index advances
by `(1, -1)[dir]` modulo `4` and the update recurses within the same
frame (`fuel` bounds that recursion; `none` when it is exhausted or when
the division by `dist = 0` raises).  The result pairs the new state with
the `game_over_lose` signal from `hits_player()`. -/
def fencingUpdate (sq : ℚ → ℚ) (plr home : Point) (radius size speed dt : ℚ)
    (dir : Bool) : ℕ → FenceState → Option (FenceState × Bool)
  | 0, _ => none
  | fuel + 1, s =>
    let dif_x := home.x + radius * fenceSignX s.corner - s.pos.x
    let dif_y := home.y + radius * fenceSignY s.corner - s.pos.y
    let dist_sq := dif_x ^ 2 + dif_y ^ 2
    if dist_sq < dt * speed ^ 2 then
      fencingUpdate sq plr home radius size speed dt dir fuel
        { s with corner := (s.corner + fenceStep dir) % 4 }
    else
      let dist := sq dist_sq
      if dist = 0 then none
      else
        let p1 : Point :=
          ⟨s.pos.x + dif_x / dist * dt * speed, s.pos.y + dif_y / dist * dt * speed⟩
        some ({ s with pos := p1 }, hitsPlayer p1.x p1.y plr.x plr.y size)

/-- Observed position of a `ChasingEnemy` after `update`: a raised
`ZeroDivisionError` propagates before any attribute is assigned, so on
`none` the position is the old one. -/
def chasingPosAfter (e : Point) (r : Option (Point × Bool)) : Point :=
  (r.map Prod.fst).getD e

/-- Observed position of a `RandomWalkEnemy` after `update` (old position
on a raised exception). -/
def rwPosAfter (s : RWState) (r : Option (RWState × Bool)) : Point :=
  ((r.map Prod.fst).getD s).pos

/-- Observed position of a `FencingEnemy` after `update` (old position on
a raised exception). -/
def fencePosAfter (s : FenceState) (r : Option (FenceState × Bool)) : Point :=
  ((r.map Prod.fst).getD s).pos

/-- Embeds the effect of `EnemyGenerator.create_enemy()` on the enemy
count: with `enemies_to_spawn = 3 * level`, a count at or above that
capacity returns immediately (no enemy added, nothing scheduled);
otherwise one enemy is added via `add_enemy` and a follow-up call is
scheduled via `after(delay, self.create_enemy)`.  The result is the new
count paired with whether a follow-up call was scheduled.  (The computed
`delay = int(3000/enemies_to_spawn)` only affects timing, never counts.) -/
def createEnemy (level count : ℕ) : ℕ × Bool :=
  if 3 * level ≤ count then (count, false)
  else (count + 1, true)

/-- The session state the counting claims are about: `TurtleAdventureGame.level`,
the `EnemyGenerator`'s mirrored level, and `len(self.enemies)`. -/
structure SessionState where
  level : ℕ
  genLevel : ℕ
  enemies : ℕ
deriving DecidableEq, Repr

/-- Embeds `TurtleAdventureGame.__init__` composed with `init_game`: the
level is stored once, `enemies = []`, and the generator is created with
`level=self.level`. -/
def sessionInit (level : ℕ) : SessionState :=
  ⟨level, level, 0⟩

/-- One `create_enemy` invocation (from either spawn chain) acting on the
session: only the enemy count changes. -/
def sessionCreateEnemy (s : SessionState) : SessionState :=
  { s with enemies := (createEnemy s.genLevel s.enemies).1 }

/-- Embeds `TurtleAdventureGame.new_game()`: `self.level += 1`, then
`self.enemy_generator.level = self.level`, then all enemies are deleted
and the list cleared, then `create_enemy()` runs, then `start_game()`
runs another `create_enemy()` (its own spawner kickoff). -/
def sessionNewGame (s : SessionState) : SessionState :=
  let s1 : SessionState := { s with level := s.level + 1 }
  let s2 : SessionState := { s1 with genLevel := s1.level }
  let s3 : SessionState := { s2 with enemies := 0 }
  sessionCreateEnemy (sessionCreateEnemy s3)

/-- The operations that touch the session counters after initialisation:
a (possibly rescheduled) `create_enemy` callback, or the win-driven
`new_game` transition. -/
inductive SessionEvent where
  | create : SessionEvent
  | newGame : SessionEvent
deriving DecidableEq, Repr

/-- Apply one session event. -/
def sessionStep (e : SessionEvent) (s : SessionState) : SessionState :=
  match e with
  | .create => sessionCreateEnemy s
  | .newGame => sessionNewGame s

/-- Run a sequence of session events from a state. -/
def sessionRun (s : SessionState) (evs : List SessionEvent) : SessionState :=
  evs.foldl (fun t e => sessionStep e t) s

/-- A concrete stand-in for `math.sqrt`, correct (see `IsSqrtOf`) at every
argument on which the closed theorems below apply it.  `math.sqrt 0 = 0`
is matched by the default branch. -/
def sqrtTable : ℚ → ℚ := fun q =>
  if q = 10000 then 100 else if q = 6400 then 80
  else if q = 72900 then 270 else if q = 8100 then 90
  else if q = 40000 then 200 else if q = 400 then 20
  else if q = 14400 then 120 else 0

/-- The `Home` of the shipped game: `init_game` places it at
`(screen_width - 100, screen_height // 2)` with size `20`, here for a
`800 × 500` screen. -/
def stdHome : HomeData := ⟨700, 250, 20⟩

/-- The preserved session invariant: the generator mirrors the session's
level and the enemy count stays within `3 * level`. -/
def SessionInv (s : SessionState) : Prop :=
  s.genLevel = s.level ∧ s.enemies ≤ 3 * s.genLevel

theorem createEnemy_le (level count : ℕ) (h : count ≤ 3 * level) :
    (createEnemy level count).1 ≤ 3 * level := by
  unfold createEnemy
  split
  · exact h
  · omega

theorem sessionStep_inv (e : SessionEvent) (s : SessionState) (h : SessionInv s) :
    SessionInv (sessionStep e s) := by
  obtain ⟨hg, hb⟩ := h
  cases e with
  | create =>
    exact ⟨hg, by simpa [sessionStep, sessionCreateEnemy, hg] using createEnemy_le s.genLevel s.enemies hb⟩
  | newGame =>
    refine ⟨rfl, ?_⟩
    show (createEnemy (s.level + 1) (createEnemy (s.level + 1) 0).1).1 ≤ 3 * (s.level + 1)
    have h1 : (createEnemy (s.level + 1) 0).1 ≤ 3 * (s.level + 1) :=
      createEnemy_le (s.level + 1) 0 (by omega)
    exact createEnemy_le (s.level + 1) _ h1

theorem sessionRun_inv (s : SessionState) (evs : List SessionEvent) (h : SessionInv s) :
    SessionInv (sessionRun s evs) := by
  induction evs generalizing s with
  | nil => exact h
  | cons e tl ih => exact ih (sessionStep e s) (sessionStep_inv e s h)

/-- C4: `create_enemy` no-ops at or above the capacity `3 * level`, adds
exactly one enemy (and schedules a follow-up) below it, and consequently
every session state reachable from initialisation by any interleaving of
`create_enemy` callbacks and `new_game` transitions keeps the enemy count
within `3 * level` (with the generator's level equal to the session's). -/
theorem enemy_count_bounded :
    (∀ level count : ℕ, 3 * level ≤ count → createEnemy level count = (count, false)) ∧
    (∀ level count : ℕ, count < 3 * level → createEnemy level count = (count + 1, true)) ∧
    (∀ level : ℕ, ∀ evs : List SessionEvent,
      (sessionRun (sessionInit level) evs).enemies ≤ 3 * (sessionRun (sessionInit level) evs).level ∧
      (sessionRun (sessionInit level) evs).genLevel = (sessionRun (sessionInit level) evs).level) := by
  refine ⟨?_, ?_, ?_⟩
  · intro level count h
    simp [createEnemy, h]
  · intro level count h
    simp [createEnemy, Nat.not_le.mpr h, h]
  · intro level evs
    have h0 : SessionInv (sessionInit level) := ⟨rfl, by simp [sessionInit]⟩
    have h1 := sessionRun_inv (sessionInit level) evs h0
    exact ⟨h1.1 ▸ h1.2, h1.1⟩

/-- C4 witness: at level 2 (capacity 6), a saturated count no-ops, a count
below capacity adds one enemy and schedules, and a short concrete run stays
within the bound. -/
theorem enemy_count_bounded_witness :
    createEnemy 2 6 = (6, false) ∧ createEnemy 2 5 = (6, true) ∧
    (sessionRun (sessionInit 2) [.create, .newGame, .create]).enemies ≤
      3 * (sessionRun (sessionInit 2) [.create, .newGame, .create]).level :=
  ⟨enemy_count_bounded.1 2 6 (by decide), enemy_count_bounded.2.1 2 5 (by decide),
    (enemy_count_bounded.2.2 2 [.create, .newGame, .create]).1⟩

/-- C5 counterexample: at level 1 the invocation that adds the third enemy
(count `2 → 3`) still schedules another delayed invocation of
`create_enemy` (the `after(delay, self.create_enemy)` line runs
unconditionally after `add_enemy`), contradicting "after the third enemy
is added, create_enemy does not schedule another delayed invocation". -/
theorem spawn_chain_schedules_fourth_call :
    createEnemy 1 2 = (3, true) := by decide

/-- C5 amended: at level 1 (capacity 3) the chain adds enemies on its
first three invocations, each of which (including the one adding the
third enemy) schedules a follow-up call; the fourth invocation adds
nothing and schedules nothing, so exactly 3 enemies are spawned and the
chain halts. -/
theorem spawn_chain_level1 :
    createEnemy 1 0 = (1, true) ∧ createEnemy 1 1 = (2, true) ∧
    createEnemy 1 2 = (3, true) ∧ createEnemy 1 3 = (3, false) ∧
    (sessionRun (sessionInit 1) [.create, .create, .create, .create]).enemies = 3 := by
  decide

/-- C10: the session's level is set at construction, `create_enemy` never
changes it, `new_game` increments it by exactly 1 and copies the new value
to the enemy generator, and the level is nondecreasing along any sequence
of session events. -/
theorem level_monotone :
    (∀ level : ℕ, (sessionInit level).level = level ∧ (sessionInit level).genLevel = level) ∧
    (∀ s : SessionState, (sessionCreateEnemy s).level = s.level ∧
      (sessionCreateEnemy s).genLevel = s.genLevel) ∧
    (∀ s : SessionState, (sessionNewGame s).level = s.level + 1 ∧
      (sessionNewGame s).genLevel = (sessionNewGame s).level) ∧
    (∀ s : SessionState, ∀ evs : List SessionEvent, s.level ≤ (sessionRun s evs).level) := by
  refine ⟨fun level => ⟨rfl, rfl⟩, fun s => ⟨rfl, rfl⟩, fun s => ⟨rfl, rfl⟩, ?_⟩
  intro s evs
  induction evs generalizing s with
  | nil => exact le_rfl
  | cons e tl ih =>
    refine le_trans ?_ (ih (sessionStep e s))
    cases e with
    | create => exact le_rfl
    | newGame => exact Nat.le_succ s.level

/-- C1: `ChasingEnemy.update` on an enemy exactly coincident with the
player computes `dist = sqrt(0) = 0` and then raises `ZeroDivisionError`
at `dif_x / dist` (modelled as `none`), instead of contributing zero
movement as the specification asks. -/
theorem chasing_update_coincident_raises (sq : ℚ → ℚ) (size speed dt : ℚ)
    (p : Point) (h0 : sq 0 = 0) :
    chasingUpdate sq p size speed dt p = none := by
  simp [chasingUpdate, h0]

/-- C1 witness: the fault at the concrete coincident input `(10, 20)`. -/
theorem chasing_update_coincident_raises_witness :
    chasingUpdate sqrtTable ⟨10, 20⟩ 20 150 1 ⟨10, 20⟩ = none :=
  chasing_update_coincident_raises sqrtTable 20 150 1 ⟨10, 20⟩ (by norm_num [sqrtTable])

/-- C8: `hits_player` is true exactly when the squared distance between
the enemy's position and the player's position is at most
`(size/2 + 9)^2`, and its value depends on the player's position only
through that squared distance (hence is independent of approach angle). -/
theorem hits_player_iff :
    (∀ ex ey px py size : ℚ, hitsPlayer ex ey px py size = true ↔
      (ex - px) ^ 2 + (ey - py) ^ 2 ≤ (size / 2 + 9) ^ 2) ∧
    (∀ ex ey px py qx qy size : ℚ,
      (ex - px) ^ 2 + (ey - py) ^ 2 = (ex - qx) ^ 2 + (ey - qy) ^ 2 →
      hitsPlayer ex ey px py size = hitsPlayer ex ey qx qy size) := by
  constructor
  · intro ex ey px py size
    simp [hitsPlayer]
  · intro ex ey px py qx qy size h
    simp only [hitsPlayer, h]

/-- C8 witness: the player at offsets `(3, 4)` and `(5, 0)` from the enemy
is at the same squared distance `25`, and `hits_player` agrees on the two
approach angles. -/
theorem hits_player_iff_witness :
    hitsPlayer 0 0 3 4 30 = hitsPlayer 0 0 5 0 30 :=
  hits_player_iff.2 0 0 3 4 5 0 30 (by norm_num)

/-- C9: `Home.contains` is the axis-aligned bounds test with all four
comparisons inclusive, and every point lying exactly on an edge of the
square (of half-width `size/2` around the home's centre) is contained. -/
theorem home_contains_inclusive :
    (∀ h : HomeData, ∀ x y : ℚ, h.contains x y = true ↔
      (h.x - h.size / 2 ≤ x ∧ x ≤ h.x + h.size / 2 ∧
       h.y - h.size / 2 ≤ y ∧ y ≤ h.y + h.size / 2)) ∧
    (∀ h : HomeData, ∀ x y : ℚ, 0 ≤ h.size →
      (((x = h.x - h.size / 2 ∨ x = h.x + h.size / 2) ∧
        h.y - h.size / 2 ≤ y ∧ y ≤ h.y + h.size / 2) ∨
       ((y = h.y - h.size / 2 ∨ y = h.y + h.size / 2) ∧
        h.x - h.size / 2 ≤ x ∧ x ≤ h.x + h.size / 2)) →
      h.contains x y = true) := by
  have hiff : ∀ h : HomeData, ∀ x y : ℚ, h.contains x y = true ↔
      (h.x - h.size / 2 ≤ x ∧ x ≤ h.x + h.size / 2 ∧
       h.y - h.size / 2 ≤ y ∧ y ≤ h.y + h.size / 2) := by
    intro h x y
    simp [HomeData.contains, and_assoc]
  refine ⟨hiff, ?_⟩
  intro h x y hsz hedge
  rw [hiff]
  rcases hedge with ⟨hx, hy1, hy2⟩ | ⟨hy, hx1, hx2⟩
  · rcases hx with rfl | rfl
    · exact ⟨le_refl _, by linarith, hy1, hy2⟩
    · exact ⟨by linarith, le_refl _, hy1, hy2⟩
  · rcases hy with rfl | rfl
    · exact ⟨hx1, hx2, le_refl _, by linarith⟩
    · exact ⟨hx1, hx2, by linarith, le_refl _⟩

/-- C9 witness: the shipped home (centre `(700, 250)`, size 20) contains
the point `(710, 250)` lying exactly on its right edge. -/
theorem home_contains_inclusive_witness :
    HomeData.contains stdHome 710 250 = true := by
  have h := home_contains_inclusive.2 stdHome 710 250 (by norm_num [stdHome])
  exact h (by norm_num [stdHome])

theorem update_zero_dt_position_unchanged :
    (∀ (sq : ℚ → ℚ) (home : HomeData) (wp : WaypointData) (speed : ℚ) (p : Point),
      (playerUpdate sq home wp speed 0 p).pos = p) ∧
    (∀ w : WaypointData, waypointUpdate 0 w = w) ∧
    (∀ h : HomeData, homeUpdate 0 h = h) ∧
    (∀ e : Point, demoUpdate 0 e = e) ∧
    (∀ (sq : ℚ → ℚ) (plr : Point) (size speed : ℚ) (e : Point),
      chasingPosAfter e (chasingUpdate sq plr size speed 0 e) = e) ∧
    (∀ (sq : ℚ → ℚ) (rng : ℕ → ℚ × ℚ) (plr : Point) (size speed : ℚ) (fuel k : ℕ) (s : RWState),
      rwPosAfter s (randomWalkUpdate sq rng plr size speed 0 (fuel + 1) k s) = s.pos) ∧
    (∀ (sq : ℚ → ℚ) (plr home : Point) (radius size speed : ℚ) (dir : Bool) (fuel : ℕ)
      (s : FenceState),
      fencePosAfter s (fencingUpdate sq plr home radius size speed 0 dir (fuel + 1) s) = s.pos) := by
  refine ⟨?_, fun w => rfl, fun h => rfl, fun e => rfl, ?_, ?_, ?_⟩
  · intro sq home wp speed p
    unfold playerUpdate
    by_cases ha : wp.active
    · simp only [ha, if_true, mul_zero]
      split <;> simp
    · simp [ha]
  · intro sq plr size speed e
    unfold chasingUpdate chasingPosAfter
    by_cases hd : sq ((plr.x - e.x) ^ 2 + (plr.y - e.y) ^ 2) = 0
    · simp [hd]
    · simp [hd]
  · intro sq rng plr size speed fuel k s
    unfold randomWalkUpdate rwPosAfter
    have hnl : ¬((s.tar.x - s.pos.x) ^ 2 + (s.tar.y - s.pos.y) ^ 2 < 0 * speed ^ 2) := by
      rw [zero_mul]
      exact not_lt.mpr (by positivity)
    simp only [hnl, if_false]
    by_cases hd : sq ((s.tar.x - s.pos.x) ^ 2 + (s.tar.y - s.pos.y) ^ 2) = 0
    · simp [hd]
    · simp [hd]
  · intro sq plr home radius size speed dir fuel s
    unfold fencingUpdate fencePosAfter
    have hnl : ¬((home.x + radius * fenceSignX s.corner - s.pos.x) ^ 2 +
        (home.y + radius * fenceSignY s.corner - s.pos.y) ^ 2 < 0 * speed ^ 2) := by
      rw [zero_mul]
      exact not_lt.mpr (by positivity)
    simp only [hnl, if_false]
    by_cases hd : sq ((home.x + radius * fenceSignX s.corner - s.pos.x) ^ 2 +
        (home.y + radius * fenceSignY s.corner - s.pos.y) ^ 2) = 0
    · simp [hd]
    · simp [hd]

theorem fencing_targets_and_advance :
    (∀ (home : Point) (radius : ℚ),
      (home.x + radius * fenceSignX 0 = home.x - radius ∧
       home.y + radius * fenceSignY 0 = home.y - radius) ∧
      (home.x + radius * fenceSignX 1 = home.x + radius ∧
       home.y + radius * fenceSignY 1 = home.y - radius) ∧
      (home.x + radius * fenceSignX 2 = home.x + radius ∧
       home.y + radius * fenceSignY 2 = home.y + radius) ∧
      (home.x + radius * fenceSignX 3 = home.x - radius ∧
       home.y + radius * fenceSignY 3 = home.y + radius)) ∧
    (fenceStep true = -1 ∧ fenceStep false = 1) ∧
    (∀ (sq : ℚ → ℚ) (plr home : Point) (radius size speed dt : ℚ) (dir : Bool) (fuel : ℕ)
      (s : FenceState),
      (home.x + radius * fenceSignX s.corner - s.pos.x) ^ 2 +
        (home.y + radius * fenceSignY s.corner - s.pos.y) ^ 2 < dt * speed ^ 2 →
      fencingUpdate sq plr home radius size speed dt dir (fuel + 1) s =
        fencingUpdate sq plr home radius size speed dt dir fuel
          { s with corner := (s.corner + fenceStep dir) % 4 }) := by
  refine ⟨?_, ⟨rfl, rfl⟩, ?_⟩
  · intro home radius
    norm_num [fenceSignX, fenceSignY]
    ring_nf
    norm_num
  · intro sq plr home radius size speed dt dir fuel s h
    conv_lhs => simp only [fencingUpdate]
    rw [if_pos h]

theorem fencing_targets_and_advance_witness :
    fencingUpdate sqrtTable ⟨0, 0⟩ ⟨100, 100⟩ 60 20 10 1 false 2 ⟨⟨40, 40⟩, 0⟩ =
      fencingUpdate sqrtTable ⟨0, 0⟩ ⟨100, 100⟩ 60 20 10 1 false 1 ⟨⟨40, 40⟩, (0 + fenceStep false) % 4⟩ :=
  fencing_targets_and_advance.2.2 sqrtTable ⟨0, 0⟩ ⟨100, 100⟩ 60 20 10 1 false 1 ⟨⟨40, 40⟩, 0⟩
    (by norm_num [fenceSignX, fenceSignY])

theorem sqrt_le_iff_le_two_mul (d del s' : ℚ) (hd0 : 0 < d) (hdel : 0 ≤ del) (hs0 : 0 ≤ s')
    (hs2 : s' ^ 2 = (d - del) ^ 2) : s' ≤ del ↔ d ≤ 2 * del := by
  constructor
  · intro h
    nlinarith
  · intro h
    nlinarith [sq_nonneg (s' - del), sq_nonneg (s' + del)]

theorem post_move_dist_sq (wx wy px py speed dt d : ℚ) (hd : d ≠ 0)
    (h2 : d ^ 2 = (wx - px) ^ 2 + (wy - py) ^ 2) :
    (wx - (px + speed * dt * ((wx - px) / d))) ^ 2 +
      (wy - (py + speed * dt * ((wy - py) / d))) ^ 2 = (d - speed * dt) ^ 2 := by
  have kx : wx - (px + speed * dt * ((wx - px) / d)) = (wx - px) * ((d - speed * dt) / d) := by
    field_simp
    ring
  have ky : wy - (py + speed * dt * ((wy - py) / d)) = (wy - py) * ((d - speed * dt) / d) := by
    field_simp
    ring
  rw [kx, ky, mul_pow, mul_pow, ← add_mul, ← h2, div_pow]
  field_simp

theorem player_waypoint_deactivation :
    (∀ (sq : ℚ → ℚ) (home : HomeData) (wx wy speed dt px py : ℚ),
      0 ≤ speed * dt →
      (wx - px) ^ 2 + (wy - py) ^ 2 ≠ 0 →
      IsSqrtOf (sq ((wx - px) ^ 2 + (wy - py) ^ 2)) ((wx - px) ^ 2 + (wy - py) ^ 2) →
      IsSqrtOf
        (sq ((wx - (px + speed * dt * ((wx - px) / sq ((wx - px) ^ 2 + (wy - py) ^ 2)))) ^ 2 +
             (wy - (py + speed * dt * ((wy - py) / sq ((wx - px) ^ 2 + (wy - py) ^ 2)))) ^ 2))
        ((wx - (px + speed * dt * ((wx - px) / sq ((wx - px) ^ 2 + (wy - py) ^ 2)))) ^ 2 +
         (wy - (py + speed * dt * ((wy - py) / sq ((wx - px) ^ 2 + (wy - py) ^ 2)))) ^ 2) →
      ((playerUpdate sq home ⟨true, wx, wy⟩ speed dt ⟨px, py⟩).wp.active = false ↔
        sq ((wx - px) ^ 2 + (wy - py) ^ 2) ≤ 2 * (speed * dt))) ∧
    (playerUpdate sqrtTable stdHome ⟨true, 100, 100⟩ 180 1 ⟨0, 100⟩ =
      ⟨⟨180, 100⟩, ⟨false, 100, 100⟩, false⟩) := by
  constructor
  · intro sq home wx wy speed dt px py hdt hne hpre hpost
    obtain ⟨hs0, hs2⟩ := hpre
    have hdne : sq ((wx - px) ^ 2 + (wy - py) ^ 2) ≠ 0 := by
      intro h
      exact hne (by rw [← hs2, h]; norm_num)
    have hdpos : 0 < sq ((wx - px) ^ 2 + (wy - py) ^ 2) := lt_of_le_of_ne hs0 (Ne.symm hdne)
    have hpe := post_move_dist_sq wx wy px py speed dt _ hdne hs2
    obtain ⟨hq0, hq2⟩ := hpost
    rw [hpe] at hq0 hq2
    simp only [playerUpdate]
    rw [if_neg hdne, hpe]
    by_cases hc : sq ((sq ((wx - px) ^ 2 + (wy - py) ^ 2) - speed * dt) ^ 2) ≤ speed * dt
    · rw [if_pos hc]
      exact ⟨fun _ => (sqrt_le_iff_le_two_mul _ _ _ hdpos hdt hq0 hq2).mp hc, fun _ => rfl⟩
    · rw [if_neg hc]
      exact ⟨fun h => absurd h (by simp), fun h2 =>
        absurd ((sqrt_le_iff_le_two_mul _ _ _ hdpos hdt hq0 hq2).mpr h2) hc⟩
  · norm_num [playerUpdate, sqrtTable, stdHome, HomeData.contains]

theorem player_waypoint_deactivation_witness :
    (playerUpdate sqrtTable stdHome ⟨true, 100, 100⟩ 180 1 ⟨0, 100⟩).wp.active = false :=
  (player_waypoint_deactivation.1 sqrtTable stdHome 100 100 180 1 0 100
    (by norm_num) (by norm_num) (by norm_num [sqrtTable, IsSqrtOf])
    (by norm_num [sqrtTable, IsSqrtOf])).mpr (by norm_num [sqrtTable])

theorem player_deactivation_counterexample :
    (playerUpdate sqrtTable stdHome ⟨true, 270, 0⟩ 180 1 ⟨0, 0⟩).wp.active = false ∧
    sqrtTable ((270 - 0) ^ 2 + (0 - 0) ^ 2) = 270 ∧ ¬((270 : ℚ) ≤ 180 * 1) ∧
    IsSqrtOf (sqrtTable 72900) 72900 ∧ IsSqrtOf (sqrtTable 8100) 8100 := by
  norm_num [playerUpdate, sqrtTable, stdHome, HomeData.contains, IsSqrtOf]

theorem player_win_signal (sq : ℚ → ℚ) (home : HomeData) (wp : WaypointData)
    (speed dt : ℚ) (p : Point) :
    ((playerUpdate sq home wp speed dt p).win = home.contains p.x p.y) ∧
    (wp.active = false → (playerUpdate sq home wp speed dt p).pos = p) ∧
    (∀ home2 : HomeData,
      (playerUpdate sq home wp speed dt p).pos = (playerUpdate sq home2 wp speed dt p).pos) := by
  refine ⟨?_, ?_, ?_⟩
  · unfold playerUpdate
    by_cases ha : wp.active <;> simp [ha]
  · intro ha
    simp [playerUpdate, ha]
  · intro home2
    unfold playerUpdate
    by_cases ha : wp.active <;> simp [ha]

theorem player_win_signal_witness :
    (playerUpdate sqrtTable ⟨100, 100, 20⟩ ⟨false, 300, 100⟩ 180 1 ⟨100, 100⟩).pos = ⟨100, 100⟩ :=
  (player_win_signal sqrtTable ⟨100, 100, 20⟩ ⟨false, 300, 100⟩ 180 1 ⟨100, 100⟩).2.1 rfl

theorem player_win_still_moves_counterexample :
    (playerUpdate sqrtTable ⟨100, 100, 20⟩ ⟨true, 300, 100⟩ 180 1 ⟨100, 100⟩).win = true ∧
    (playerUpdate sqrtTable ⟨100, 100, 20⟩ ⟨true, 300, 100⟩ 180 1 ⟨100, 100⟩).pos ≠ ⟨100, 100⟩ ∧
    IsSqrtOf (sqrtTable 40000) 40000 ∧ IsSqrtOf (sqrtTable 400) 400 := by
  refine ⟨?_, ?_, by norm_num [sqrtTable, IsSqrtOf], by norm_num [sqrtTable, IsSqrtOf]⟩
  · norm_num [playerUpdate, sqrtTable, HomeData.contains]
  · intro h
    have : (playerUpdate sqrtTable ⟨100, 100, 20⟩ ⟨true, 300, 100⟩ 180 1 ⟨100, 100⟩).pos =
        ⟨280, 100⟩ := by
      norm_num [playerUpdate, sqrtTable, HomeData.contains]
    rw [this] at h
    simp at h
